import Mathlib

/-!
Verification of the SignalSlice scan pipeline against its specification.

The definitions below are shallow embeddings of the Python sources:
  - `src/validation.py`  (field validators)
  - `src/app.py`         (dashboard state, index updates, scan cycle, activity feed)
  - `src/script/anomalyDetect.py` (threshold anomaly detection over a snapshot)
  - `src/scraping/gmapsScrape.py` (day-cycle partitioning, weekday assignment,
    live-percentage element acceptance)

Numeric conventions: Python ints are `Int`, Python floats are `Rat`
(all arithmetic relevant to the verified statements is exact),
fallible functions return `Except` or `Option`.
-/

namespace SignalSlice

/-- Validation failure carrying the offending field name
(`ValidationError` in `src/validation.py`). -/
inductive VErr where
  | validation (field : String)
deriving DecidableEq, Repr

/-- Remove leading and trailing whitespace characters from a character list
(model of the implicit whitespace handling of Python string operations). -/
def listTrim (l : List Char) : List Char :=
  ((l.dropWhile Char.isWhitespace).reverse.dropWhile Char.isWhitespace).reverse

/-- Interpret a nonempty all-digit character list as a natural number;
`none` otherwise.  Helper for the model of the Python `int(str)` builtin. -/
def parseDigits (cs : List Char) : Option ℕ :=
  if cs = [] ∨ ¬ cs.all Char.isDigit then none
  else some (cs.foldl (fun a c => a * 10 + (c.toNat - 48)) 0)

/-- Model of the Python builtin `int(s)` on strings: optional surrounding
whitespace, an optional sign, then one or more decimal digits.
Returns `none` where Python raises `ValueError`. -/
def pyParseInt (s : String) : Option ℤ :=
  match listTrim s.toList with
  | '+' :: rest => (parseDigits rest).map (fun n => (n : ℤ))
  | '-' :: rest => (parseDigits rest).map (fun n => -(n : ℤ))
  | cs => (parseDigits cs).map (fun n => (n : ℤ))

/-- The input domain of `validate_busyness_percent`
(`Optional[Union[int, str]]` in `src/validation.py`). -/
inductive BusynessInput where
  | vNone
  | vInt (n : ℤ)
  | vStr (s : String)
deriving DecidableEq, Repr

/-- The integer a `BusynessInput` coerces to under the Python `int()` builtin,
if any; `vNone` coerces to nothing. -/
def busynessIntValue : BusynessInput → Option ℤ
  | .vNone => none
  | .vInt n => some n
  | .vStr s => pyParseInt s

/-- Embedding of `validate_busyness_percent` (`src/validation.py` lines 38-57):
`None`, `""` and `"None"` pass through as missing data; strings are coerced
with `int()` (`ValueError` becomes a `ValidationError`); the value must lie
in `[BUSYNESS_MIN, BUSYNESS_MAX] = [0, 100]`. -/
def validate_busyness_percent (value : BusynessInput) : Except VErr (Option ℤ) :=
  match value with
  | .vNone => .ok none
  | .vStr s =>
    if s = "" ∨ s = "None" then .ok none
    else
      match pyParseInt s with
      | none => .error (.validation "busyness_percent")
      | some n =>
        if 0 ≤ n ∧ n ≤ 100 then .ok (some n)
        else .error (.validation "busyness_percent")
  | .vInt n =>
    if 0 ≤ n ∧ n ≤ 100 then .ok (some n)
    else .error (.validation "busyness_percent")

/-- Round-half-to-even on rationals, the rounding mode of the Python `round`
builtin. -/
def roundHalfEven (q : ℚ) : ℤ :=
  if q - (Int.floor q : ℚ) < 1 / 2 then Int.floor q
  else if 1 / 2 < q - (Int.floor q : ℚ) then Int.floor q + 1
  else if Int.floor q % 2 = 0 then Int.floor q else Int.floor q + 1

/-- Model of Python `round(q, 2)`: round to two decimal places,
half-to-even. -/
def pyRound2 (q : ℚ) : ℚ :=
  ((roundHalfEven (q * 100) : ℤ) : ℚ) / 100

/-- Embedding of `validate_index_value` (`src/validation.py` lines 195-206).
The input is the result of the Python `float(value)` coercion: `none` models a
value on which `float()` raises (`ValueError`/`TypeError`).  In-range values
are rounded to two decimal places. -/
def validate_index_value (value : Option ℚ) (field : String) : Except VErr ℚ :=
  match value with
  | none => .error (.validation field)
  | some q =>
    if 0 ≤ q ∧ q ≤ 10 then .ok (pyRound2 q)
    else .error (.validation field)

/-- The fields of the process-wide `dashboard_state` dictionary of `src/app.py`
that the scan cycle mutates. -/
structure DashState where
  pizza_index : ℚ
  gay_bar_index : ℚ
  scan_count : ℕ
  anomaly_count : ℕ
deriving DecidableEq, Repr

/-- Embedding of `update_pizza_index` (`src/app.py` lines 106-125): validate,
store the validated value; a `ValidationError` is caught inside and leaves the
stored index unchanged. -/
def update_pizza_index (st : DashState) (value : Option ℚ) : DashState :=
  match validate_index_value value "pizza_index" with
  | .ok q => { st with pizza_index := q }
  | .error _ => st

/-- Embedding of `update_gay_bar_index` (`src/app.py` lines 127-147),
symmetric to `update_pizza_index`. -/
def update_gay_bar_index (st : DashState) (value : Option ℚ) : DashState :=
  match validate_index_value value "gay_bar_index" with
  | .ok q => { st with gay_bar_index := q }
  | .error _ => st

/-- One in-memory scraped record as consumed by `run_scanner_cycle`
(`src/app.py` lines 196-270): only the venue type and the busyness percentage
drive the index computations. -/
structure Sample where
  venue_type : String
  busyness_percent : Option ℚ
deriving DecidableEq, Repr

/-- The pizza index computed from the restaurant average
(`src/app.py` lines 202-219): mean restaurant busyness divided by 10;
`none` when there is no restaurant sample with data, in which case the stored
index is not touched. -/
def pizzaIndexFromAvg (scraped : List Sample) : Option ℚ :=
  let restaurant_data := scraped.filter (fun s => s.venue_type = "restaurant")
  if restaurant_data.isEmpty then none
  else
    let busyness_values := restaurant_data.filterMap (fun s => s.busyness_percent)
    if busyness_values.isEmpty then none
    else some (busyness_values.sum / (busyness_values.length : ℚ) / 10)

/-- The restaurant-average step of the scan cycle (`src/app.py` lines 201-233). -/
def pizzaAvgUpdate (st : DashState) (scraped : List Sample) : DashState :=
  match pizzaIndexFromAvg scraped with
  | none => st
  | some v => update_pizza_index st (some v)

/-- The bar index computed from the combined gay-bar and sports-bar average
(`src/app.py` lines 235-257): `10 - mean busyness / 10`; `none` when no bar
sample has data. -/
def barIndexFromAvg (scraped : List Sample) : Option ℚ :=
  let gay_bar_data := scraped.filter (fun s => s.venue_type = "gay_bar")
  let sports_bar_data := scraped.filter (fun s => s.venue_type = "sports_bar")
  let combined_bar_data := gay_bar_data ++ sports_bar_data
  if combined_bar_data.isEmpty then none
  else
    let busyness_values := combined_bar_data.filterMap (fun s => s.busyness_percent)
    if busyness_values.isEmpty then none
    else some (10 - busyness_values.sum / (busyness_values.length : ℚ) / 10)

/-- The bar-average step of the scan cycle (`src/app.py` lines 235-270). -/
def barAvgUpdate (st : DashState) (scraped : List Sample) : DashState :=
  match barIndexFromAvg scraped with
  | none => st
  | some v => update_gay_bar_index st (some v)

/-- The pseudo-random drift of the no-anomaly branch
(`src/app.py` line 315): `((hash(str(datetime.now())) % 21 - 10) / 100) * 0.5`,
with the hash value passed in as an arbitrary integer.  Python `%` on a
positive modulus is the Euclidean remainder, as is `Int.emod`. -/
def computeDrift (h : ℤ) : ℚ :=
  (((h % 21 : ℤ) : ℚ) - 10) / 100 * 0.5

/-- The post-detection index adjustment (`src/app.py` lines 293-318).
Anomaly branch: increment the anomaly count and set the index to
`min(10, pizza_index + 1.5)`.  The `change_percent` computation on line 301
divides by `pizza_index` without a zero guard, so when the stored index is 0
the branch raises `ZeroDivisionError`, the cycle aborts via the outer handler
and the index update never happens; the model returns the state reached at
that point.  No-anomaly branch: add the drift, clamped to `[0, 10]` (here the
division on line 317 is guarded). -/
def anomalyAdjust (st : DashState) (anomaliesFound : Bool) (h : ℤ) : DashState :=
  if anomaliesFound then
    let st' := { st with anomaly_count := st.anomaly_count + 1 }
    if st'.pizza_index = 0 then st'
    else update_pizza_index st' (some (min 10 (st'.pizza_index + 1.5)))
  else
    let base_change := computeDrift h
    update_pizza_index st (some (max 0 (min 10 (st.pizza_index + base_change))))

/-- Embedding of one scan cycle, `run_scanner_cycle` (`src/app.py` lines
166-351), restricted to its effect on `dashboard_state`: restaurant-average
pizza-index update, bar-average update, scan-count update
(`update_scan_stats`), then the anomaly/drift adjustment.  The scraped data
and the anomaly-detection outcome are inputs; `h` is the hash value feeding
the drift. -/
def run_scanner_cycle (st : DashState) (scraped : List Sample)
    (anomaliesFound : Bool) (h : ℤ) : DashState :=
  let st1 := pizzaAvgUpdate st scraped
  let st2 := barAvgUpdate st1 scraped
  let st3 := { st2 with scan_count := st2.scan_count + 1 }
  anomalyAdjust st3 anomaliesFound h

/-- One row of the current-hour snapshot CSV as read back by
`check_current_anomalies` (`src/script/anomalyDetect.py`): every CSV field is
a string; `venue_type` is `none` when the column is absent (the code then
defaults it to `"restaurant"`). -/
structure CsvRow where
  venue_type : Option String
  busyness_percent : String
deriving DecidableEq, Repr

/-- Accumulator of the row loop of `check_current_anomalies`
(`src/script/anomalyDetect.py` lines 69-118): restaurant busyness values,
bar busyness values, and the absolute-threshold offenders. -/
structure AnomalyAcc where
  pizza : List ℤ
  bar : List ℤ
  absolute : List ℤ
deriving DecidableEq, Repr

/-- One iteration of the row loop of `check_current_anomalies`
(`src/script/anomalyDetect.py` lines 78-118): skip rows with missing busyness
(`""` or `"None"`), skip rows whose busyness fails validation, then
categorize by venue type; a restaurant row at `ABSOLUTE_THRESHOLD = 90` or
above is also recorded as an absolute anomaly. -/
def processRow (acc : AnomalyAcc) (r : CsvRow) : AnomalyAcc :=
  if r.busyness_percent = "" ∨ r.busyness_percent = "None" then acc
  else
    match validate_busyness_percent (.vStr r.busyness_percent) with
    | .ok (some b) =>
      if r.venue_type.getD "restaurant" = "restaurant" then
        { acc with
          pizza := acc.pizza ++ [b]
          absolute := if 90 ≤ b then acc.absolute ++ [b] else acc.absolute }
      else
        { acc with bar := acc.bar ++ [b] }
    | _ => acc

/-- Mean of a list of integers as a rational; `0` for the empty list
(matching the `if pizza_data else 0` convention of the source, and rational
division by zero for the cases where the source never divides). -/
def avgQ (l : List ℤ) : ℚ :=
  (l.map (fun b => (b : ℚ))).sum / (l.length : ℚ)

/-- Embedding of `check_current_anomalies` (`src/script/anomalyDetect.py`
lines 43-174).  The input is the parsed snapshot file: `none` when the
current-hour file does not exist (the function then returns `False`).
Rule 1 (absolute): some restaurant at 90 percent or above.
Rule 2 (divergence): bar data exists, restaurant average at least 70 and bar
average at most 30. -/
def check_current_anomalies (file : Option (List CsvRow)) : Bool :=
  match file with
  | none => false
  | some rows =>
    let acc := rows.foldl processRow ⟨[], [], []⟩
    let pizza_avg : ℚ := if acc.pizza.isEmpty then 0 else avgQ acc.pizza
    let absoluteAlert := !acc.absolute.isEmpty
    let divergenceAlert :=
      !acc.bar.isEmpty && decide (70 ≤ pizza_avg) && decide (avgQ acc.bar ≤ 30)
    absoluteAlert || divergenceAlert

/-- The busyness value `check_current_anomalies` extracts from one CSV row,
if any: the row is skipped when busyness is missing (`""`/`"None"`) or fails
validation. -/
def rowBusyness (r : CsvRow) : Option ℤ :=
  if r.busyness_percent = "" ∨ r.busyness_percent = "None" then none
  else
    match validate_busyness_percent (.vStr r.busyness_percent) with
    | .ok (some b) => some b
    | _ => none

/-- The busyness values of the restaurant samples with data in a snapshot. -/
def restaurantBusyness (rows : List CsvRow) : List ℤ :=
  rows.filterMap (fun r =>
    if r.venue_type.getD "restaurant" = "restaurant" then rowBusyness r else none)

/-- The busyness values of the bar (gay-bar and sports-bar) samples with data
in a snapshot. -/
def barBusyness (rows : List CsvRow) : List ℤ :=
  rows.filterMap (fun r =>
    let vt := r.venue_type.getD "restaurant"
    if vt = "gay_bar" ∨ vt = "sports_bar" then rowBusyness r else none)

/-- The busyness values the detector actually buckets as bars: every sample
with data whose venue type is not `"restaurant"` (the `else` branch of the
categorization).  Coincides with `barBusyness` on well-formed snapshots. -/
def nonRestaurantBusyness (rows : List CsvRow) : List ℤ :=
  rows.filterMap (fun r =>
    if r.venue_type.getD "restaurant" = "restaurant" then none else rowBusyness r)

/-- One raw time bucket inside the day-cycle analysis of `scrape_current_hour`
(`src/scraping/gmapsScrape.py`): the 24-hour value drives the cycle boundary
detection; the busyness value rides along. -/
structure TimeEntry where
  hour24 : ℕ
  busyness : Option ℤ
deriving DecidableEq, Repr

/-- The day-cycle loop of `scrape_current_hour` (`src/scraping/gmapsScrape.py`
lines 449-468): walking the entries in order, a fresh cycle starts whenever an
entry with hour 6 is seen while the current cycle already has entries; the
final nonempty cycle is appended at the end. -/
def dayCyclesGo (cycles : List (List TimeEntry)) (current : List TimeEntry) :
    List TimeEntry → List (List TimeEntry)
  | [] => if current = [] then cycles else cycles ++ [current]
  | e :: rest =>
    if e.hour24 = 6 ∧ current ≠ [] then
      dayCyclesGo (cycles ++ [current]) [e] rest
    else
      dayCyclesGo cycles (current ++ [e]) rest

/-- Partition an ordered entry sequence into day cycles
(`src/scraping/gmapsScrape.py` lines 449-468). -/
def detectDayCycles (l : List TimeEntry) : List (List TimeEntry) :=
  dayCyclesGo [] [] l

/-- The Monday-first weekday list of the cycle assignment
(`src/scraping/gmapsScrape.py` line 485). -/
def weekdays : List String :=
  ["Monday", "Tuesday", "Wednesday", "Thursday", "Friday", "Saturday", "Sunday"]

/-- The weekday labels assigned to the detected cycles
(`src/scraping/gmapsScrape.py` lines 485-494): cycle `k` gets
`weekdays[(weekdays.index(current_weekday) + k) % 7]`. -/
def dayNames (numCycles : ℕ) (currentWeekday : String) : List String :=
  (List.range numCycles).map
    (fun k => weekdays.getD ((weekdays.indexOf currentWeekday + k) % 7) "")

/-- Lowercase a string into its character list, modelling the Python
`str.lower()` used before the substring tests (ASCII case folding). -/
def pyLower (s : String) : List Char :=
  s.toList.map Char.toLower

/-- Whether the lowercased character list matches the regular expression
`\d+% busy`: some digit immediately followed by the literal `"% busy"`. -/
def percentBusyAt : List Char → Bool
  | [] => false
  | c :: rest => (c.isDigit && List.isPrefixOf "% busy".toList rest) || percentBusyAt rest

/-- Whether `needle` occurs as a contiguous substring of the character list,
modelling the Python `in` test on strings. -/
def containsSub (needle : List Char) : List Char → Bool
  | [] => List.isPrefixOf needle []
  | c :: rest => List.isPrefixOf needle (c :: rest) || containsSub needle rest

/-- Embedding of the live-percentage acceptance test of `scrape_current_hour`
(`src/scraping/gmapsScrape.py` line 304): the descriptive attribute matches
`\d+% busy` case-insensitively AND the lowercased text does not contain the
substring `"at"` anywhere. -/
def ariaIsLivePercent (aria : String) : Bool :=
  percentBusyAt (pyLower aria) && !(containsSub "at".toList (pyLower aria))

/-- Whether the character list contains a time reference of the form
`at <hour>`: the literal `"at "` immediately followed by a digit.  Written
from the words of the specification (section 4.1 step 2) for comparison with
the source acceptance test `ariaIsLivePercent`. -/
def atHourAt : List Char → Bool
  | c1 :: c2 :: c3 :: c4 :: rest =>
    (c1 = 'a' && c2 = 't' && c3 = ' ' && c4.isDigit) || atHourAt (c2 :: c3 :: c4 :: rest)
  | _ => false

/-- The acceptance condition as the specification states it: contains a
busyness percentage and does not contain an `at <hour>` time reference. -/
def specAriaIsLive (aria : String) : Bool :=
  percentBusyAt (pyLower aria) && !(atHourAt (pyLower aria))

/-- Consume a leading digit run, accumulating its value
(helper for the model of `re.search` with pattern `(\d+)%`). -/
def digitsSpan (acc : ℕ) : List Char → ℕ × List Char
  | [] => (acc, [])
  | c :: rest =>
    if c.isDigit then digitsSpan (acc * 10 + (c.toNat - 48)) rest
    else (acc, c :: rest)

/-- Model of `re.search(r"(\d+)%", aria)`: the value of the first digit run
immediately followed by a percent sign (the search advances one position at
a time, like the regular-expression engine). -/
def firstPercent : List Char → Option ℕ
  | [] => none
  | c :: rest =>
    if c.isDigit then
      match digitsSpan (c.toNat - 48) rest with
      | (v, '%' :: _) => some v
      | _ => firstPercent rest
    else firstPercent rest

/-- The live busyness value one element contributes
(`src/scraping/gmapsScrape.py` lines 296-325): the element must pass the
acceptance test, its first percentage is extracted and validated; a
validation failure makes the loop continue with the next element. -/
def ariaLivePercentValue (aria : String) : Option ℤ :=
  if ariaIsLivePercent aria then
    match firstPercent (pyLower aria) with
    | none => none
    | some p =>
      match validate_busyness_percent (.vInt (p : ℤ)) with
      | .ok (some b) => some b
      | _ => none
  else none

/-- The live percentage reading of a venue fetch: the first element whose
descriptive attribute is accepted and validates
(`src/scraping/gmapsScrape.py` lines 292-329). -/
def findLivePercentData (labels : List String) : Option ℤ :=
  labels.findSome? ariaLivePercentValue

/-- The live busyness finally used for the venue
(`src/scraping/gmapsScrape.py` lines 313-344): a live percentage reading
supersedes the live text-match candidate, which is used only when no
percentage reading was found. -/
def liveData (labels : List String) (textIndicator : Option ℤ) : Option ℤ :=
  match findLivePercentData labels with
  | some b => some b
  | none => textIndicator

/-- The valid activity types of `validate_activity_item`
(`src/validation.py` line 258). -/
def valid_activity_types : List String :=
  ["SCAN", "SCRAPE", "ANALYZE", "ANOMALY", "ERROR", "SYSTEM", "INIT",
   "CONNECT", "PIZZA", "GAYBAR"]

/-- The valid activity levels of `validate_activity_item`
(`src/validation.py` line 259). -/
def valid_levels : List String :=
  ["normal", "success", "warning", "critical"]

/-- Embedding of `sanitize_string` (`src/validation.py` lines 238-252):
drop control characters other than newline, carriage return and tab,
truncate to the maximum length, then remove surrounding whitespace. -/
def sanitize_string (s : String) (maxLength : ℕ) : String :=
  String.mk (listTrim
    ((s.toList.filter (fun c => 32 ≤ c.toNat || c ∈ ['\n', '\r', '\t'])).take maxLength))

/-- Embedding of `validate_activity_item` (`src/validation.py` lines
254-271): the type and level must be known; the message is sanitized with a
500 character cap. -/
def validate_activity_item (activity_type message level : String) :
    Except VErr (String × String × String) :=
  if activity_type ∈ valid_activity_types then
    if level ∈ valid_levels then
      .ok (activity_type, sanitize_string message 500, level)
    else .error (.validation "level")
  else .error (.validation "activity_type")

/-- One activity feed entry (`src/app.py` lines 86-91). -/
structure Activity where
  type : String
  message : String
  level : String
  timestamp : String
deriving DecidableEq, Repr

/-- Embedding of `add_activity_item` (`src/app.py` lines 78-105): validate the
item (a failure leaves the feed untouched), insert the validated entry at the
head and keep only the first 10 entries. -/
def add_activity_item (feed : List Activity)
    (activity_type message level timestamp : String) : List Activity :=
  match validate_activity_item activity_type message level with
  | .ok (t, m, l) => ((⟨t, m, l, timestamp⟩ : Activity) :: feed).take 10
  | .error _ => feed

/-! ### Helper lemmas on rounding and the index updates -/

theorem roundHalfEven_intCast (n : ℤ) : roundHalfEven (n : ℚ) = n := by
  unfold roundHalfEven
  rw [Int.floor_intCast]
  norm_num

theorem pyRound2_eq_self {q : ℚ} {n : ℤ} (h : q * 100 = (n : ℚ)) : pyRound2 q = q := by
  unfold pyRound2
  rw [h, roundHalfEven_intCast, ← h]
  ring

theorem floor_le_roundHalfEven (q : ℚ) : Int.floor q ≤ roundHalfEven q := by
  unfold roundHalfEven
  split_ifs <;> omega

theorem roundHalfEven_le_ceil (q : ℚ) : roundHalfEven q ≤ Int.ceil q := by
  unfold roundHalfEven
  split_ifs with h1 h2 h3
  · exact Int.floor_le_ceil q
  · have hlt : (Int.floor q : ℚ) < q := by linarith
    exact (Int.add_one_le_ceil_iff.mpr hlt)
  · exact Int.floor_le_ceil q
  · have heq : q - (Int.floor q : ℚ) = 1 / 2 := le_antisymm (not_lt.mp h2) (not_lt.mp h1)
    have hlt : (Int.floor q : ℚ) < q := by linarith
    exact (Int.add_one_le_ceil_iff.mpr hlt)

theorem pyRound2_mem {q : ℚ} (h0 : 0 ≤ q) (h10 : q ≤ 10) :
    0 ≤ pyRound2 q ∧ pyRound2 q ≤ 10 := by
  have hf : (0 : ℤ) ≤ Int.floor (q * 100) := Int.floor_nonneg.mpr (by linarith)
  have hc : Int.ceil (q * 100) ≤ (1000 : ℤ) := Int.ceil_le.mpr (by push_cast; linarith)
  have hlo : (0 : ℤ) ≤ roundHalfEven (q * 100) :=
    le_trans hf (floor_le_roundHalfEven _)
  have hhi : roundHalfEven (q * 100) ≤ 1000 :=
    le_trans (roundHalfEven_le_ceil _) hc
  have hq : ((roundHalfEven (q * 100) : ℤ) : ℚ) ≤ ((1000 : ℤ) : ℚ) :=
    Int.cast_le.mpr hhi
  have hq0 : ((0 : ℤ) : ℚ) ≤ ((roundHalfEven (q * 100) : ℤ) : ℚ) :=
    Int.cast_le.mpr hlo
  push_cast at hq hq0
  unfold pyRound2
  constructor
  · positivity
  · rw [div_le_iff₀ (by norm_num : (0:ℚ) < 100)]
    linarith

theorem update_pizza_index_mem {st : DashState} (v : Option ℚ)
    (h0 : 0 ≤ st.pizza_index) (h10 : st.pizza_index ≤ 10) :
    0 ≤ (update_pizza_index st v).pizza_index ∧
      (update_pizza_index st v).pizza_index ≤ 10 := by
  unfold update_pizza_index validate_index_value
  cases v with
  | none => exact ⟨h0, h10⟩
  | some q =>
    by_cases hq : 0 ≤ q ∧ q ≤ 10
    · simp only [hq, if_true]
      exact pyRound2_mem hq.1 hq.2
    · simp only [hq, if_false]
      exact ⟨h0, h10⟩

theorem update_gay_bar_index_pizza (st : DashState) (v : Option ℚ) :
    (update_gay_bar_index st v).pizza_index = st.pizza_index := by
  unfold update_gay_bar_index
  cases validate_index_value v "gay_bar_index" <;> rfl

theorem barAvgUpdate_pizza (st : DashState) (scraped : List Sample) :
    (barAvgUpdate st scraped).pizza_index = st.pizza_index := by
  unfold barAvgUpdate
  cases barIndexFromAvg scraped with
  | none => rfl
  | some v => exact update_gay_bar_index_pizza st (some v)

/-! ### C10: missing-data sentinels of busyness validation -/

/-- C10: busyness-percent validation treats `None`, the empty string and the
literal string `"None"` all as missing data, returning `None` without
raising. -/
theorem c10_missing_sentinels :
    validate_busyness_percent .vNone = .ok none ∧
    validate_busyness_percent (.vStr "") = .ok none ∧
    validate_busyness_percent (.vStr "None") = .ok none :=
  ⟨rfl, rfl, rfl⟩

/-! ### C6: busyness-percent validation on integers and numeric strings -/

/-- C6: for every integer or integer-coercible string input, busyness
validation raises a `ValidationError` when the coerced value lies outside
`[0, 100]` and returns that same integer when it lies inside; a `None` input
passes through unchanged as `None`. -/
theorem c6_busyness_validation :
    validate_busyness_percent .vNone = .ok none ∧
    (∀ v n, busynessIntValue v = some n → ¬(0 ≤ n ∧ n ≤ 100) →
      validate_busyness_percent v = .error (.validation "busyness_percent")) ∧
    (∀ v n, busynessIntValue v = some n → 0 ≤ n → n ≤ 100 →
      validate_busyness_percent v = .ok (some n)) := by
  refine ⟨rfl, ?_, ?_⟩
  · intro v n hv hout
    cases v with
    | vNone => simp [busynessIntValue] at hv
    | vInt m =>
      simp only [busynessIntValue, Option.some.injEq] at hv
      subst hv
      simp [validate_busyness_percent, hout]
    | vStr s =>
      simp only [busynessIntValue] at hv
      have hs1 : s ≠ "" := by
        intro h
        subst h
        rw [show pyParseInt "" = none from rfl] at hv
        exact Option.noConfusion hv
      have hs2 : s ≠ "None" := by
        intro h
        subst h
        rw [show pyParseInt "None" = none from by decide] at hv
        exact Option.noConfusion hv
      simp [validate_busyness_percent, hs1, hs2, hv, hout]
  · intro v n hv h0 h100
    cases v with
    | vNone => simp [busynessIntValue] at hv
    | vInt m =>
      simp only [busynessIntValue, Option.some.injEq] at hv
      subst hv
      simp [validate_busyness_percent, h0, h100]
    | vStr s =>
      simp only [busynessIntValue] at hv
      have hs1 : s ≠ "" := by
        intro h
        subst h
        rw [show pyParseInt "" = none from rfl] at hv
        exact Option.noConfusion hv
      have hs2 : s ≠ "None" := by
        intro h
        subst h
        rw [show pyParseInt "None" = none from by decide] at hv
        exact Option.noConfusion hv
      simp [validate_busyness_percent, hs1, hs2, hv, h0, h100]

/-- Witness for C6 at the concrete inputs `"150"` (coercible, out of range)
and `50` (in range). -/
theorem c6_busyness_validation_witness :
    validate_busyness_percent (.vStr "150") = .error (.validation "busyness_percent") ∧
    validate_busyness_percent (.vInt 50) = .ok (some 50) := by
  constructor
  · exact c6_busyness_validation.2.1 (.vStr "150") 150 (by decide) (by decide)
  · exact c6_busyness_validation.2.2 (.vInt 50) 50 rfl (by decide) (by decide)

/-! ### C9: index updates validate inside and leave state unchanged on error -/

/-- C9: an index update with a value that is not convertible to a float in
`[0, 10]` catches the validation error internally and leaves the state
unchanged; a valid value is stored rounded to two decimal places (for both
the pizza index and the gay-bar index). -/
theorem c9_index_update (st : DashState) (v : Option ℚ) :
    ((∀ q, v = some q → ¬(0 ≤ q ∧ q ≤ 10)) →
      update_pizza_index st v = st ∧ update_gay_bar_index st v = st) ∧
    (∀ q, v = some q → 0 ≤ q → q ≤ 10 →
      (update_pizza_index st v).pizza_index = pyRound2 q ∧
      (update_gay_bar_index st v).gay_bar_index = pyRound2 q) := by
  constructor
  · intro hbad
    cases v with
    | none => exact ⟨rfl, rfl⟩
    | some q =>
      have hq := hbad q rfl
      constructor
      · simp [update_pizza_index, validate_index_value, hq]
      · simp [update_gay_bar_index, validate_index_value, hq]
  · intro q hv h0 h10
    subst hv
    constructor
    · simp [update_pizza_index, validate_index_value, h0, h10]
    · simp [update_gay_bar_index, validate_index_value, h0, h10]

/-- Witness for C9 at the concrete inputs `11` (out of range, state kept) and
`3.45` (valid, stored rounded). -/
theorem c9_index_update_witness :
    (update_pizza_index ⟨1, 2, 3, 4⟩ (some 11) = ⟨1, 2, 3, 4⟩ ∧
      update_gay_bar_index ⟨1, 2, 3, 4⟩ (some 11) = ⟨1, 2, 3, 4⟩) ∧
    (update_pizza_index ⟨1, 2, 3, 4⟩ (some (345 / 100))).pizza_index =
      pyRound2 (345 / 100) := by
  constructor
  · exact (c9_index_update ⟨1, 2, 3, 4⟩ (some 11)).1
      (by intro q hq; cases hq; decide)
  · exact ((c9_index_update ⟨1, 2, 3, 4⟩ (some (345 / 100))).2 (345 / 100) rfl
      (by norm_num) (by norm_num)).1

/-! ### C2: the stored pizza index stays in `[0, 10]` across a scan cycle -/

theorem pizzaAvgUpdate_mem {st : DashState} (scraped : List Sample)
    (h0 : 0 ≤ st.pizza_index) (h10 : st.pizza_index ≤ 10) :
    0 ≤ (pizzaAvgUpdate st scraped).pizza_index ∧
      (pizzaAvgUpdate st scraped).pizza_index ≤ 10 := by
  unfold pizzaAvgUpdate
  cases pizzaIndexFromAvg scraped with
  | none => exact ⟨h0, h10⟩
  | some v => exact update_pizza_index_mem (some v) h0 h10

theorem anomalyAdjust_mem {st : DashState} (anomaliesFound : Bool) (h : ℤ)
    (h0 : 0 ≤ st.pizza_index) (h10 : st.pizza_index ≤ 10) :
    0 ≤ (anomalyAdjust st anomaliesFound h).pizza_index ∧
      (anomalyAdjust st anomaliesFound h).pizza_index ≤ 10 := by
  unfold anomalyAdjust
  cases anomaliesFound with
  | false =>
    simp only [Bool.false_eq_true, if_false]
    exact update_pizza_index_mem _ h0 h10
  | true =>
    simp only [if_true]
    by_cases hz : st.pizza_index = 0
    · simp only [hz, if_pos]
      constructor <;> simp [hz]
    · have hz' : ¬({ st with anomaly_count := st.anomaly_count + 1 } :
          DashState).pizza_index = 0 := hz
      simp only [hz', if_false]
      exact update_pizza_index_mem _ h0 h10

theorem list_sum_const_of_mem {l : List ℚ} {c : ℚ} (h : ∀ x ∈ l, x = c) :
    l.sum = c * l.length := by
  induction l with
  | nil => simp
  | cons a t ih =>
    have ha : a = c := h a (List.mem_cons_self a t)
    have ht := ih (fun x hx => h x (List.mem_cons_of_mem a hx))
    simp [ha, ht]
    ring

theorem pizzaIndexFromAvg_all_100 {scraped : List Sample}
    (hall : ∀ s ∈ scraped, s.venue_type = "restaurant" → s.busyness_percent = some 100)
    (hex : ∃ s ∈ scraped, s.venue_type = "restaurant") :
    pizzaIndexFromAvg scraped = some 10 := by
  obtain ⟨s0, hs0mem, hs0r⟩ := hex
  unfold pizzaIndexFromAvg
  have hs0f : s0 ∈ scraped.filter (fun s => s.venue_type = "restaurant") :=
    List.mem_filter.mpr ⟨hs0mem, by simp [hs0r]⟩
  have hne : ¬(scraped.filter (fun s => s.venue_type = "restaurant")).isEmpty := by
    cases hf : scraped.filter (fun s => s.venue_type = "restaurant") with
    | nil => rw [hf] at hs0f; cases hs0f
    | cons a t => simp [hf]
  simp only [hne, if_false]
  set vals := (scraped.filter (fun s => s.venue_type = "restaurant")).filterMap
    (fun s => s.busyness_percent) with hvals
  have hmem100 : (100 : ℚ) ∈ vals := by
    rw [hvals]
    exact List.mem_filterMap.mpr ⟨s0, hs0f,
      hall s0 hs0mem hs0r⟩
  have hvne : ¬vals.isEmpty := by
    cases hv : vals with
    | nil => rw [hv] at hmem100; cases hmem100
    | cons a t => simp [hv]
  simp only [hvne, if_false]
  have hconst : ∀ x ∈ vals, x = (100 : ℚ) := by
    intro x hx
    rw [hvals] at hx
    obtain ⟨s, hsf, hsb⟩ := List.mem_filterMap.mp hx
    obtain ⟨hsmem, hsr⟩ := List.mem_filter.mp hsf
    have := hall s hsmem (by simpa using hsr)
    rw [this] at hsb
    exact (Option.some.injEq _ _ ▸ hsb).symm
  have hsum : vals.sum = 100 * vals.length := list_sum_const_of_mem hconst
  have hlen : (0 : ℚ) < vals.length := by
    cases hv : vals with
    | nil => rw [hv] at hmem100; cases hmem100
    | cons a t => simp [hv]; positivity
  rw [hsum]
  field_simp
  norm_num

/-- C2: after every scan cycle, whatever the input busyness values (each in
`[0, 100]` or absent), the stored pizza index lies in `[0, 10]`; and when
every restaurant sample reports 100 percent busyness, the index computed
from the averages (before any anomaly boost) is exactly 10. -/
theorem c2_pizza_index_bounds (st : DashState) (scraped : List Sample)
    (anomaliesFound : Bool) (h : ℤ)
    (h0 : 0 ≤ st.pizza_index) (h10 : st.pizza_index ≤ 10)
    (_hbusy : ∀ s ∈ scraped, ∀ b, s.busyness_percent = some b → 0 ≤ b ∧ b ≤ 100) :
    (0 ≤ (run_scanner_cycle st scraped anomaliesFound h).pizza_index ∧
      (run_scanner_cycle st scraped anomaliesFound h).pizza_index ≤ 10) ∧
    ((∀ s ∈ scraped, s.venue_type = "restaurant" → s.busyness_percent = some 100) →
      (∃ s ∈ scraped, s.venue_type = "restaurant") →
      pizzaIndexFromAvg scraped = some 10 ∧
        (pizzaAvgUpdate st scraped).pizza_index = 10) := by
  constructor
  · unfold run_scanner_cycle
    have h1 := pizzaAvgUpdate_mem scraped h0 h10
    have h2 : 0 ≤ (barAvgUpdate (pizzaAvgUpdate st scraped) scraped).pizza_index ∧
        (barAvgUpdate (pizzaAvgUpdate st scraped) scraped).pizza_index ≤ 10 := by
      rw [barAvgUpdate_pizza]
      exact h1
    exact anomalyAdjust_mem anomaliesFound h h2.1 h2.2
  · intro hall hex
    have havg := pizzaIndexFromAvg_all_100 hall hex
    refine ⟨havg, ?_⟩
    unfold pizzaAvgUpdate
    rw [havg]
    have hval : validate_index_value (some (10 : ℚ)) "pizza_index"
        = .ok (pyRound2 10) := by
      simp only [validate_index_value]
      norm_num
    show (update_pizza_index st (some 10)).pizza_index = 10
    unfold update_pizza_index
    rw [hval]
    show pyRound2 10 = 10
    exact @pyRound2_eq_self 10 1000 (by norm_num)

/-- Witness for C2 at a concrete state and a single restaurant sample at 100
percent. -/
theorem c2_pizza_index_bounds_witness :
    (0 ≤ (run_scanner_cycle ⟨342 / 100, 658 / 100, 0, 0⟩
        [⟨"restaurant", some 100⟩] false 7).pizza_index ∧
      (run_scanner_cycle ⟨342 / 100, 658 / 100, 0, 0⟩
        [⟨"restaurant", some 100⟩] false 7).pizza_index ≤ 10) ∧
    pizzaIndexFromAvg [⟨"restaurant", some 100⟩] = some 10 ∧
      (pizzaAvgUpdate ⟨342 / 100, 658 / 100, 0, 0⟩
        [⟨"restaurant", some 100⟩]).pizza_index = 10 := by
  have h := c2_pizza_index_bounds ⟨342 / 100, 658 / 100, 0, 0⟩
    [⟨"restaurant", some 100⟩] false 7 (by norm_num) (by norm_num)
    (by
      intro s hs b hb
      rcases List.mem_singleton.mp hs with rfl
      rw [show ((⟨"restaurant", some 100⟩ : Sample)).busyness_percent
        = some 100 from rfl] at hb
      rcases Option.some.inj hb with rfl
      norm_num)
  refine ⟨h.1, h.2 ?_ ?_⟩
  · intro s hs _
    rcases List.mem_singleton.mp hs with rfl
    rfl
  · exact ⟨⟨"restaurant", some 100⟩, List.mem_singleton.mpr rfl, rfl⟩

/-! ### C5: anomaly boost and pseudo-random drift -/

theorem anomalyAdjust_true_pos {st : DashState} (h : ℤ)
    (hz : st.pizza_index ≠ 0) (h0 : 0 ≤ st.pizza_index)
    (n : ℤ) (hn : st.pizza_index * 100 = (n : ℚ)) :
    (anomalyAdjust st true h).pizza_index = min 10 (st.pizza_index + 1.5) := by
  have hb0 : (0 : ℚ) ≤ min 10 (st.pizza_index + 1.5) :=
    le_min (by norm_num) (by rw [show (1.5 : ℚ) = 3 / 2 from by norm_num]; linarith)
  have hb10 : min 10 (st.pizza_index + 1.5) ≤ 10 := min_le_left _ _
  have hint : min 10 (st.pizza_index + 1.5) * 100 = ((min 1000 (n + 150) : ℤ) : ℚ) := by
    rcases min_cases (10 : ℚ) (st.pizza_index + 1.5) with ⟨hmin, hle⟩ | ⟨hmin, hlt⟩
    · rw [hmin]
      have : (n : ℚ) + 150 ≥ 1000 := by
        rw [← hn, show (1.5 : ℚ) = 3 / 2 from by norm_num] at *
        nlinarith
      rw [min_eq_left (by exact_mod_cast this)]
      norm_num
    · rw [hmin]
      have : (n : ℚ) + 150 ≤ 1000 := by
        rw [← hn, show (1.5 : ℚ) = 3 / 2 from by norm_num] at *
        nlinarith
      rw [min_eq_right (by exact_mod_cast this)]
      push_cast
      rw [← hn]
      ring
  have hval : validate_index_value (some (min 10 (st.pizza_index + 1.5)))
      "pizza_index" = .ok (pyRound2 (min 10 (st.pizza_index + 1.5))) := by
    simp only [validate_index_value]
    rw [if_pos ⟨hb0, hb10⟩]
  have hadj : anomalyAdjust st true h =
      update_pizza_index { st with anomaly_count := st.anomaly_count + 1 }
        (some (min 10 (st.pizza_index + 1.5))) := by
    simp [anomalyAdjust, hz]
  rw [hadj]
  unfold update_pizza_index
  rw [hval]
  exact pyRound2_eq_self hint

/-- C5: evaluation of the post-detection adjustment.  At `pizza_index = 0`
with an anomaly found, the unguarded `change_percent` division of
`src/app.py` line 301 raises `ZeroDivisionError`, the cycle aborts and the
stored index stays 0 instead of becoming `min(10, 0 + 1.5)` as the
specification demands (the analogous division on line 317 is guarded); at a
positive index the boost behaves as specified.  In the no-anomaly branch the
drift always lies within `[-0.05, 0.05]` and the stored result is the
drifted value clamped to `[0, 10]` (then rounded to two decimals). -/
theorem c5_anomaly_boost_and_drift :
    ((run_scanner_cycle ⟨0, 658 / 100, 0, 0⟩ [] true 7).pizza_index = 0 ∧
      (run_scanner_cycle ⟨0, 658 / 100, 0, 0⟩ [] true 7).pizza_index ≠
        min 10 ((0 : ℚ) + 1.5)) ∧
    (run_scanner_cycle ⟨342 / 100, 658 / 100, 0, 0⟩ [] true 7).pizza_index =
      min 10 (342 / 100 + 1.5) ∧
    (∀ h : ℤ, -(1 / 20) ≤ computeDrift h ∧ computeDrift h ≤ 1 / 20) ∧
    (∀ (st : DashState) (h : ℤ),
      (anomalyAdjust st false h).pizza_index =
        pyRound2 (max 0 (min 10 (st.pizza_index + computeDrift h))) ∧
      0 ≤ (anomalyAdjust st false h).pizza_index ∧
      (anomalyAdjust st false h).pizza_index ≤ 10) := by
  have hzero : (run_scanner_cycle ⟨0, 658 / 100, 0, 0⟩ [] true 7).pizza_index
      = 0 := by decide
  have hpos : run_scanner_cycle ⟨342 / 100, 658 / 100, 0, 0⟩ [] true 7
      = anomalyAdjust ⟨342 / 100, 658 / 100, 1, 0⟩ true 7 := rfl
  refine ⟨⟨hzero, ?_⟩, ?_, ?_, ?_⟩
  · rw [hzero, min_def]
    norm_num
  · rw [hpos]
    exact anomalyAdjust_true_pos 7 (by norm_num) (by norm_num) 342 (by norm_num)
  · intro h
    have hm0 : (0 : ℤ) ≤ h % 21 := Int.emod_nonneg h (by norm_num)
    have hm1 : h % 21 < 21 := Int.emod_lt_of_pos h (by norm_num)
    have hq0 : (0 : ℚ) ≤ ((h % 21 : ℤ) : ℚ) := by exact_mod_cast hm0
    have hq1 : ((h % 21 : ℤ) : ℚ) ≤ 20 := by exact_mod_cast (by omega : h % 21 ≤ 20)
    unfold computeDrift
    rw [show (0.5 : ℚ) = 1 / 2 from by norm_num]
    constructor <;> linarith
  · intro st h
    have hcl0 : (0 : ℚ) ≤ max 0 (min 10 (st.pizza_index + computeDrift h)) :=
      le_max_left 0 _
    have hcl10 : max 0 (min 10 (st.pizza_index + computeDrift h)) ≤ 10 :=
      max_le (by norm_num) (min_le_left _ _)
    have hval : validate_index_value
        (some (max 0 (min 10 (st.pizza_index + computeDrift h)))) "pizza_index"
        = .ok (pyRound2 (max 0 (min 10 (st.pizza_index + computeDrift h)))) := by
      simp only [validate_index_value]
      rw [if_pos ⟨hcl0, hcl10⟩]
    have hadj : anomalyAdjust st false h =
        update_pizza_index st
          (some (max 0 (min 10 (st.pizza_index + computeDrift h)))) := by
      simp [anomalyAdjust]
    rw [hadj]
    unfold update_pizza_index
    rw [hval]
    exact ⟨rfl, pyRound2_mem hcl0 hcl10⟩

/-! ### C8: the activity feed is a bounded most-recent-first buffer -/

theorem add_activity_item_length_le {feed : List Activity}
    (hf : feed.length ≤ 10) (t msg lvl ts : String) :
    (add_activity_item feed t msg lvl ts).length ≤ 10 := by
  unfold add_activity_item
  cases validate_activity_item t msg lvl with
  | error e => exact hf
  | ok x =>
    obtain ⟨a, b, c⟩ := x
    simp only [List.length_take]
    exact min_le_left _ _

/-- C8: the activity feed never exceeds 10 entries over any insertion
sequence starting from the empty feed; each valid new entry is inserted at
the head, and when the feed is full the oldest entry is evicted from the
tail. -/
theorem c8_activity_feed :
    (∀ (feed : List Activity) (t msg lvl ts : String),
      t ∈ valid_activity_types → lvl ∈ valid_levels →
      (add_activity_item feed t msg lvl ts).length ≤ 10 ∧
      (add_activity_item feed t msg lvl ts).head? =
        some ⟨t, sanitize_string msg 500, lvl, ts⟩ ∧
      (feed.length = 10 →
        add_activity_item feed t msg lvl ts =
          (⟨t, sanitize_string msg 500, lvl, ts⟩ : Activity) :: feed.dropLast)) ∧
    (∀ ops : List (String × String × String × String),
      (ops.foldl
        (fun f o => add_activity_item f o.1 o.2.1 o.2.2.1 o.2.2.2) []).length ≤ 10) := by
  constructor
  · intro feed t msg lvl ts ht hl
    have hvalid : validate_activity_item t msg lvl =
        .ok (t, sanitize_string msg 500, lvl) := by
      unfold validate_activity_item
      rw [if_pos ht, if_pos hl]
    unfold add_activity_item
    rw [hvalid]
    refine ⟨?_, ?_, ?_⟩
    · simp only [List.length_take]
      exact min_le_left _ _
    · rfl
    · intro hfull
      have hdl : feed.dropLast = feed.take 9 := by
        rw [List.dropLast_eq_take, hfull]
      rw [hdl]
      rfl
  · intro ops
    have aux : ∀ (l : List (String × String × String × String))
        (f : List Activity), f.length ≤ 10 →
        (l.foldl (fun f o => add_activity_item f o.1 o.2.1 o.2.2.1 o.2.2.2)
          f).length ≤ 10 := by
      intro l
      induction l with
      | nil => intro f hf; exact hf
      | cons o rest ih =>
        intro f hf
        exact ih _ (add_activity_item_length_le hf _ _ _ _)
    exact aux ops [] (by norm_num)

/-- Witness for C8 at a full concrete feed of 10 entries. -/
theorem c8_activity_feed_witness :
    (add_activity_item
        (List.replicate 10 (⟨"SCAN", "old", "normal", "00:00:00"⟩ : Activity))
        "SCAN" "hello" "normal" "00:00:01").length ≤ 10 ∧
    add_activity_item
        (List.replicate 10 (⟨"SCAN", "old", "normal", "00:00:00"⟩ : Activity))
        "SCAN" "hello" "normal" "00:00:01" =
      (⟨"SCAN", sanitize_string "hello" 500, "normal", "00:00:01"⟩ : Activity) ::
        (List.replicate 10
          (⟨"SCAN", "old", "normal", "00:00:00"⟩ : Activity)).dropLast := by
  have h := c8_activity_feed.1
    (List.replicate 10 (⟨"SCAN", "old", "normal", "00:00:00"⟩ : Activity))
    "SCAN" "hello" "normal" "00:00:01" (by decide) (by decide)
  exact ⟨h.1, h.2.2 (by decide)⟩

/-! ### C1: the anomaly check fires exactly on Rule A or Rule B -/

theorem processRow_eq (acc : AnomalyAcc) (r : CsvRow) :
    processRow acc r =
      match rowBusyness r with
      | none => acc
      | some b =>
        if r.venue_type.getD "restaurant" = "restaurant" then
          { acc with
            pizza := acc.pizza ++ [b]
            absolute := if 90 ≤ b then acc.absolute ++ [b] else acc.absolute }
        else { acc with bar := acc.bar ++ [b] } := by
  unfold processRow rowBusyness
  by_cases hskip : r.busyness_percent = "" ∨ r.busyness_percent = "None"
  · simp [hskip]
  · simp only [hskip, if_false]
    cases hv : validate_busyness_percent (.vStr r.busyness_percent) with
    | error e => rfl
    | ok o => cases o <;> rfl

theorem foldl_processRow_pizza (rows : List CsvRow) :
    ∀ acc : AnomalyAcc,
      (rows.foldl processRow acc).pizza = acc.pizza ++ restaurantBusyness rows := by
  induction rows with
  | nil => intro acc; simp [restaurantBusyness]
  | cons r rows ih =>
    intro acc
    rw [List.foldl_cons, ih]
    rcases hrb : rowBusyness r with _ | b <;>
      by_cases hven : r.venue_type.getD "restaurant" = "restaurant" <;>
        simp [processRow_eq, hrb, hven, restaurantBusyness, List.filterMap_cons]

theorem foldl_processRow_bar (rows : List CsvRow) :
    ∀ acc : AnomalyAcc,
      (rows.foldl processRow acc).bar = acc.bar ++ nonRestaurantBusyness rows := by
  induction rows with
  | nil => intro acc; simp [nonRestaurantBusyness]
  | cons r rows ih =>
    intro acc
    rw [List.foldl_cons, ih]
    rcases hrb : rowBusyness r with _ | b <;>
      by_cases hven : r.venue_type.getD "restaurant" = "restaurant" <;>
        simp [processRow_eq, hrb, hven, nonRestaurantBusyness, List.filterMap_cons]

theorem foldl_processRow_absolute (rows : List CsvRow) :
    ∀ acc : AnomalyAcc,
      (rows.foldl processRow acc).absolute =
        acc.absolute ++ (restaurantBusyness rows).filter (fun b => 90 ≤ b) := by
  induction rows with
  | nil => intro acc; simp [restaurantBusyness]
  | cons r rows ih =>
    intro acc
    rw [List.foldl_cons, ih]
    rcases hrb : rowBusyness r with _ | b
    · by_cases hven : r.venue_type.getD "restaurant" = "restaurant" <;>
        simp [processRow_eq, hrb, hven, restaurantBusyness, List.filterMap_cons]
    · by_cases hven : r.venue_type.getD "restaurant" = "restaurant" <;>
        by_cases h90 : (90 : ℤ) ≤ b <;>
          simp [processRow_eq, hrb, hven, h90, restaurantBusyness,
            List.filterMap_cons, List.filter_cons]

theorem barBusyness_eq_nonRestaurant {rows : List CsvRow}
    (hwf : ∀ r ∈ rows, r.venue_type.getD "restaurant" ∈
      (["restaurant", "gay_bar", "sports_bar"] : List String)) :
    barBusyness rows = nonRestaurantBusyness rows := by
  unfold barBusyness nonRestaurantBusyness
  apply List.filterMap_congr
  intro r hr
  have h := hwf r hr
  rcases List.mem_cons.mp h with h1 | h1
  · simp [h1]
  · rcases List.mem_cons.mp h1 with h2 | h2
    · simp [h2]
    · rcases List.mem_cons.mp h2 with h3 | h3
      · simp [h3]
      · cases h3

theorem filter_ge_ne_nil_iff (l : List ℤ) :
    l.filter (fun b => 90 ≤ b) ≠ [] ↔ ∃ b ∈ l, (90 : ℤ) ≤ b := by
  constructor
  · intro h
    obtain ⟨b, hb⟩ := List.exists_mem_of_ne_nil _ h
    have := List.mem_filter.mp hb
    exact ⟨b, this.1, by simpa using this.2⟩
  · rintro ⟨b, hbl, hb90⟩ hnil
    have : b ∈ l.filter (fun b => 90 ≤ b) :=
      List.mem_filter.mpr ⟨hbl, by simpa using hb90⟩
    rw [hnil] at this
    cases this

/-- C1: the anomaly check over the latest snapshot returns `true` exactly when
Rule A fires (some restaurant sample with data at 90 percent or above) or
Rule B fires (at least one bar sample with data, restaurant average at least
70, combined bar average at most 30); in every other case, including an empty
snapshot or a missing snapshot file, it returns `false`. -/
theorem c1_anomaly_rules :
    check_current_anomalies none = false ∧
    ∀ rows : List CsvRow,
      (∀ r ∈ rows, r.venue_type.getD "restaurant" ∈
        (["restaurant", "gay_bar", "sports_bar"] : List String)) →
      (check_current_anomalies (some rows) = true ↔
        ((∃ b ∈ restaurantBusyness rows, (90 : ℤ) ≤ b) ∨
         (barBusyness rows ≠ [] ∧
          70 ≤ avgQ (restaurantBusyness rows) ∧
          avgQ (barBusyness rows) ≤ 30))) := by
  refine ⟨rfl, ?_⟩
  intro rows hwf
  show (let acc := rows.foldl processRow ⟨[], [], []⟩
    let pizza_avg : ℚ := if acc.pizza.isEmpty then 0 else avgQ acc.pizza
    let absoluteAlert := !acc.absolute.isEmpty
    let divergenceAlert :=
      !acc.bar.isEmpty && decide (70 ≤ pizza_avg) && decide (avgQ acc.bar ≤ 30)
    absoluteAlert || divergenceAlert) = true ↔ _
  simp only
  rw [foldl_processRow_pizza rows ⟨[], [], []⟩,
    foldl_processRow_bar rows ⟨[], [], []⟩,
    foldl_processRow_absolute rows ⟨[], [], []⟩]
  simp only [List.nil_append]
  rw [← barBusyness_eq_nonRestaurant hwf]
  have havg : (if (restaurantBusyness rows).isEmpty then (0 : ℚ)
      else avgQ (restaurantBusyness rows)) = avgQ (restaurantBusyness rows) := by
    cases h : restaurantBusyness rows with
    | nil => simp [avgQ]
    | cons a t => simp
  rw [havg]
  rw [Bool.or_eq_true, Bool.and_eq_true, Bool.and_eq_true]
  simp only [Bool.not_eq_true', List.isEmpty_eq_false, decide_eq_true_eq]
  rw [filter_ge_ne_nil_iff, and_assoc]

/-- Witness for C1 at a one-row snapshot with a restaurant at 95 percent. -/
theorem c1_anomaly_rules_witness :
    check_current_anomalies (some [⟨some "restaurant", "95"⟩]) = true :=
  (c1_anomaly_rules.2 [⟨some "restaurant", "95"⟩] (by decide)).mpr
    (Or.inl ⟨95, by decide, by decide⟩)

/-! ### C3: day-cycle partitioning splits exactly at hour-6 boundaries -/

theorem dayCyclesGo_no6 {m : List TimeEntry} (hm : ∀ e ∈ m, e.hour24 ≠ 6) :
    ∀ (rest : List TimeEntry) (cycles : List (List TimeEntry))
      (current : List TimeEntry),
      dayCyclesGo cycles current (m ++ rest) =
        dayCyclesGo cycles (current ++ m) rest := by
  induction m with
  | nil => intro rest cycles current; simp
  | cons e m ih =>
    intro rest cycles current
    have he : e.hour24 ≠ 6 := hm e (List.mem_cons_self e m)
    have hcond : ¬(e.hour24 = 6 ∧ current ≠ []) := fun hc => he hc.1
    rw [List.cons_append]
    show (if e.hour24 = 6 ∧ current ≠ [] then
        dayCyclesGo (cycles ++ [current]) [e] (m ++ rest)
      else dayCyclesGo cycles (current ++ [e]) (m ++ rest)) = _
    rw [if_neg hcond]
    rw [ih (fun x hx => hm x (List.mem_cons_of_mem e hx)) rest cycles (current ++ [e])]
    rw [List.append_cons current e m]

theorem detectDayCycles_two (x y : TimeEntry) (a b : List TimeEntry)
    (hy : y.hour24 = 6)
    (ha : ∀ e ∈ a, e.hour24 ≠ 6) (hb : ∀ e ∈ b, e.hour24 ≠ 6) :
    detectDayCycles (x :: (a ++ y :: b)) = [x :: a, y :: b] := by
  unfold detectDayCycles
  show (if x.hour24 = 6 ∧ ([] : List TimeEntry) ≠ [] then
      dayCyclesGo ([] ++ [[]]) [x] (a ++ y :: b)
    else dayCyclesGo [] ([] ++ [x]) (a ++ y :: b)) = _
  rw [if_neg (fun hc => hc.2 rfl)]
  rw [show ([] : List TimeEntry) ++ [x] = [x] from rfl]
  rw [dayCyclesGo_no6 ha (y :: b) [] [x]]
  show (if y.hour24 = 6 ∧ ([x] ++ a) ≠ [] then
      dayCyclesGo ([] ++ [[x] ++ a]) [y] b
    else dayCyclesGo [] (([x] ++ a) ++ [y]) b) = _
  rw [if_pos ⟨hy, by simp⟩]
  rw [show b = b ++ [] from (List.append_nil b).symm]
  rw [dayCyclesGo_no6 hb [] ([] ++ [[x] ++ a]) [y]]
  simp [dayCyclesGo]

/-- C3: for every 40-entry sequence in which hour 6 occurs exactly at indices
0 and 20, the day-cycle partition produces exactly two cycles, the first
consisting of entries 0-19 and the second of entries 20-39. -/
theorem c3_day_cycle_partition (l : List TimeEntry) (hlen : l.length = 40)
    (h6 : ∀ (i : ℕ) (hi : i < l.length), (l[i].hour24 = 6 ↔ (i = 0 ∨ i = 20))) :
    detectDayCycles l = [l.take 20, l.drop 20] := by
  cases l with
  | nil => simp at hlen
  | cons x t =>
    have hlt : t.length = 39 := by simpa using hlen
    cases hdrop : t.drop 19 with
    | nil =>
      have : (t.drop 19).length = 20 := by rw [List.length_drop, hlt]
      rw [hdrop] at this
      simp at this
    | cons y b =>
      have hx : x.hour24 = 6 := by
        have h0 := (h6 0 (by omega)).mpr (Or.inl rfl)
        simpa using h0
      have hy : y.hour24 = 6 := by
        have hlt19 : 19 < t.length := by omega
        have hdlt : 0 < (t.drop 19).length := by rw [hdrop]; simp
        have hclt : 19 + 1 < (x :: t).length := by simp; omega
        have h19 : t[19] = y := by
          have h0 : (t.drop 19)[0] = y := by
            simp [hdrop]
          rw [List.getElem_drop] at h0
          simpa using h0
        have h20 := (h6 20 (by omega)).mpr (Or.inr rfl)
        have h20b : ((x :: t)[19 + 1]).hour24 = 6 := h20
        rw [List.getElem_cons_succ] at h20b
        rw [h19] at h20b
        exact h20b
      have ha : ∀ e ∈ t.take 19, e.hour24 ≠ 6 := by
        intro e he
        obtain ⟨i, hi, hie⟩ := List.mem_iff_getElem.mp he
        have hi19 : i < 19 := by
          have := hi
          rw [List.length_take, hlt] at this
          omega
        rw [List.getElem_take] at hie
        have hclt : i + 1 < (x :: t).length := by simp; omega
        have hcons : (x :: t)[i + 1] = e := by
          rw [List.getElem_cons_succ]
          exact hie
        intro h6e
        have := (h6 (i + 1) hclt).mp (by rw [hcons]; exact h6e)
        omega
      have hb : ∀ e ∈ b, e.hour24 ≠ 6 := by
        intro e he
        have hb20 : b = t.drop 20 := by
          have h1 : (t.drop 19).drop 1 = t.drop 20 := by
            rw [List.drop_drop]
          rw [hdrop] at h1
          simpa using h1
        rw [hb20] at he
        obtain ⟨i, hi, hie⟩ := List.mem_iff_getElem.mp he
        have hi19 : i < 19 := by
          have := hi
          rw [List.length_drop, hlt] at this
          omega
        rw [List.getElem_drop] at hie
        have hclt : 20 + i + 1 < (x :: t).length := by simp; omega
        have hcons : (x :: t)[20 + i + 1] = e := by
          rw [List.getElem_cons_succ]
          exact hie
        intro h6e
        have := (h6 (20 + i + 1) hclt).mp (by rw [hcons]; exact h6e)
        omega
      have ht : t = t.take 19 ++ y :: b := by
        conv_lhs => rw [← List.take_append_drop 19 t]
        rw [hdrop]
      rw [show (20 : ℕ) = 19 + 1 from rfl, List.take_succ_cons,
        List.drop_succ_cons, hdrop]
      conv_lhs => rw [ht]
      exact detectDayCycles_two x y (t.take 19) b hy ha hb

/-- Witness for C3 at a concrete 40-entry sequence with hour 6 at indices 0
and 20 and hour 7 everywhere else. -/
theorem c3_day_cycle_partition_witness :
    detectDayCycles ((⟨6, none⟩ : TimeEntry) :: List.replicate 19 ⟨7, none⟩ ++
        (⟨6, none⟩ : TimeEntry) :: List.replicate 19 ⟨7, none⟩) =
      [((⟨6, none⟩ : TimeEntry) :: List.replicate 19 ⟨7, none⟩ ++
          (⟨6, none⟩ : TimeEntry) :: List.replicate 19 ⟨7, none⟩).take 20,
        ((⟨6, none⟩ : TimeEntry) :: List.replicate 19 ⟨7, none⟩ ++
          (⟨6, none⟩ : TimeEntry) :: List.replicate 19 ⟨7, none⟩).drop 20] :=
  c3_day_cycle_partition _ (by decide) (by decide)

/-! ### C4: weekday labels are assigned forward from today -/

theorem getD_range_map {β : Type} (f : ℕ → β) (n k : ℕ) (d : β) (hk : k < n) :
    ((List.range n).map f).getD k d = f k := by
  rw [List.getD_eq_getElem?_getD, List.getElem?_map, List.getElem?_range hk]
  rfl

/-- C4: for every list of detected day cycles and every current weekday,
cycle 0 is assigned the current weekday and cycle `k` is assigned the weekday
at position `(index of today + k) mod 7` of the Monday-first ordering —
cycles enumerate forward from today. -/
theorem c4_weekday_assignment (cycles : List (List TimeEntry)) (cur : String)
    (hcur : cur ∈ weekdays) (hne : 0 < cycles.length) :
    (dayNames cycles.length cur).getD 0 "" = cur ∧
    ∀ k, k < cycles.length →
      (dayNames cycles.length cur).getD k "" =
        weekdays.getD ((weekdays.indexOf cur + k) % 7) "" := by
  have hsecond : ∀ k, k < cycles.length →
      (dayNames cycles.length cur).getD k "" =
        weekdays.getD ((weekdays.indexOf cur + k) % 7) "" := by
    intro k hk
    unfold dayNames
    exact getD_range_map _ _ _ _ hk
  refine ⟨?_, hsecond⟩
  rw [hsecond 0 hne]
  simp only [weekdays] at hcur
  fin_cases hcur <;> rfl

/-- Witness for C4 with one detected cycle on a Sunday. -/
theorem c4_weekday_assignment_witness :
    (dayNames ([[(⟨6, none⟩ : TimeEntry)]] : List (List TimeEntry)).length
        "Sunday").getD 0 "" = "Sunday" ∧
    (dayNames ([[(⟨6, none⟩ : TimeEntry)]] : List (List TimeEntry)).length
        "Sunday").getD 0 "" =
      weekdays.getD ((weekdays.indexOf "Sunday" + 0) % 7) "" := by
  have h := c4_weekday_assignment [[(⟨6, none⟩ : TimeEntry)]] "Sunday"
    (by decide) (by decide)
  exact ⟨h.1, h.2 0 (by decide)⟩

/-! ### C7: acceptance of a live percentage reading -/

/-- C7, counterexample to the claim as stated: the attribute string
`"50% busy on Saturday"` contains a busyness percentage and no `at <hour>`
time reference, so the specified acceptance test accepts it, but the source
rejects it because the word `Saturday` contains the substring `"at"`. -/
theorem c7_live_acceptance_counterexample :
    ariaIsLivePercent "50% busy on Saturday" = false ∧
    specAriaIsLive "50% busy on Saturday" = true := by
  decide

/-- C7 as amended: an attribute string is accepted as a live percentage
reading exactly when it matches `\d+% busy` case-insensitively and its
lowercased text does not contain the substring `"at"` anywhere (a strictly
stronger requirement than lacking an `at <hour>` time reference); and a found
live percentage reading supersedes any live text-match candidate, which is
used only when no percentage reading exists. -/
theorem c7_live_acceptance :
    (∀ aria : String, ariaIsLivePercent aria = true ↔
      (percentBusyAt (pyLower aria) = true ∧
        containsSub "at".toList (pyLower aria) = false)) ∧
    (∀ (labels : List String) (textInd : Option ℤ) (b : ℤ),
      findLivePercentData labels = some b → liveData labels textInd = some b) ∧
    (∀ (labels : List String) (textInd : Option ℤ),
      findLivePercentData labels = none → liveData labels textInd = textInd) := by
  refine ⟨?_, ?_, ?_⟩
  · intro aria
    unfold ariaIsLivePercent
    simp [Bool.and_eq_true, Bool.not_eq_true']
  · intro labels textInd b h
    unfold liveData
    rw [h]
  · intro labels textInd h
    unfold liveData
    rw [h]

/-- Witness for C7 at a concrete label list where a live percentage reading
supersedes a text-match candidate. -/
theorem c7_live_acceptance_witness :
    liveData ["Currently 66% busy"] (some 75) = some 66 :=
  c7_live_acceptance.2.1 ["Currently 66% busy"] (some 75) 66 (by decide)

end SignalSlice
